import Mathlib

/-!
Shallow embedding of the sticky-notes geometry and layering engine of this
repository (source files src/src/App.tsx and src/src/Note.tsx).

Modelling conventions:
- pixel geometry (x, y, width, height, viewport sizes, mouse deltas) is a
  rational number, so the literal 0.3 of the source is the exact 3/10;
- priority and zIndex are integers; the JavaScript remainder `%` on the
  integer values used by the code is Int.tmod (sign of the dividend);
- a TypeScript Partial record is a record of Option fields, and the spread
  merge of updateNote keeps a field when the update does not carry it;
- the random id of generateId and the random default position of createNote
  are parameters of the embedded operations;
- React state cells (notes, maxZIndex) become explicit arguments/results.
-/

/-- The Note entity, as in `Note` of src/unnamed/part_000 extended with the
`priority` field that App.tsx and Note.tsx read and write. -/
structure Note where
  id : String
  x : ℚ
  y : ℚ
  width : ℚ
  height : ℚ
  content : String
  color : String
  priority : ℤ
  zIndex : ℤ
deriving DecidableEq

/-- A `Partial Note` update record: each field is optional. -/
structure NoteUpdate where
  id : Option String := none
  x : Option ℚ := none
  y : Option ℚ := none
  width : Option ℚ := none
  height : Option ℚ := none
  content : Option String := none
  color : Option String := none
  priority : Option ℤ := none
  zIndex : Option ℤ := none
deriving DecidableEq

/-- The spread merge `\x7b...note, ...updates\x7d` of updateNote (App.tsx line 74):
every field carried by the update replaces the note's field. -/
def mergeUpdate (note : Note) (u : NoteUpdate) : Note :=
  { id := u.id.getD note.id
    x := u.x.getD note.x
    y := u.y.getD note.y
    width := u.width.getD note.width
    height := u.height.getD note.height
    content := u.content.getD note.content
    color := u.color.getD note.color
    priority := u.priority.getD note.priority
    zIndex := u.zIndex.getD note.zIndex }

/-- The `Math.max(...samePriorityNotes.map(n => n.zIndex % 1000))` part of
calculateZIndex (App.tsx lines 36-39), with the length guard: 0 when no note
has the given priority. -/
def maxInPriority (priority : ℤ) (notes : List Note) : ℤ :=
  match (notes.filter fun n => n.priority == priority).map
      (fun n => Int.tmod n.zIndex 1000) with
  | [] => 0
  | a :: rest => rest.foldl max a

/-- calculateZIndex (App.tsx lines 31-42): band base `(6 - priority) * 1000`
plus the maximal in-band offset among same-priority notes plus one. -/
def calculateZIndex (priority : ℤ) (notes : List Note) : ℤ :=
  (6 - priority) * 1000 + maxInPriority priority notes + 1

/-- createNote (App.tsx lines 46-68) on the notes list. The generated id, the
chosen position, the selected size and the window size are parameters; the
position is clamped into `[0, vw - w] x [0, vh - h]` exactly as in the source,
the new note gets default priority 3, color yellow, empty content, and zIndex
from calculateZIndex, and is appended to the collection. -/
def createNote (notes : List Note) (newId : String) (noteX noteY w h vw vh : ℚ) :
    List Note :=
  let defaultPriority : ℤ := 3
  let newZIndex := calculateZIndex defaultPriority notes
  let newNote : Note :=
    { id := newId
      x := max 0 (min noteX (vw - w))
      y := max 0 (min noteY (vh - h))
      width := w
      height := h
      content := ""
      color := "yellow"
      priority := defaultPriority
      zIndex := newZIndex }
  notes ++ [newNote]

/-- The `setMaxZIndex(Math.max(maxZIndex, newZIndex))` of createNote
(App.tsx line 67). -/
def createMaxZIndex (maxZIndex : ℤ) (notes : List Note) : ℤ :=
  max maxZIndex (calculateZIndex 3 notes)

/-- The condition `updates.priority !== undefined && updates.priority !==
note.priority` of updateNote (App.tsx line 77). -/
def priorityChanged (u : NoteUpdate) (note : Note) : Bool :=
  match u.priority with
  | some p => p != note.priority
  | none => false

/-- The condition `updates.x !== undefined || updates.y !== undefined ||
updates.width !== undefined || updates.height !== undefined` of updateNote
(App.tsx lines 81-82). -/
def geometryChanged (u : NoteUpdate) : Bool :=
  u.x.isSome || u.y.isSome || u.width.isSome || u.height.isSome

/-- The body of the `prev.map` of updateNote (App.tsx lines 72-89): merge the
update into the matching note and re-derive its zIndex (from the pre-update
list `prev`) when the priority changed or some geometry field is present. -/
def applyUpdate (prev : List Note) (targetId : String) (u : NoteUpdate)
    (note : Note) : Note :=
  if note.id == targetId then
    let updatedNote := mergeUpdate note u
    if priorityChanged u note then
      { updatedNote with
        zIndex := calculateZIndex (u.priority.getD note.priority) prev }
    else if geometryChanged u then
      { updatedNote with zIndex := calculateZIndex note.priority prev }
    else updatedNote
  else note

/-- The full recompute of updateNote (App.tsx lines 93-100): every note's
zIndex becomes band base plus its index (in array order) among the notes of
its priority plus one. -/
def recomputeAll (notes : List Note) : List Note :=
  notes.map fun note =>
    let priorityBase := (6 - note.priority) * 1000
    let samePriorityNotes := notes.filter fun n => n.priority == note.priority
    let indexInPriority := samePriorityNotes.findIdx fun n => n.id == note.id
    { note with zIndex := priorityBase + (indexInPriority : ℤ) + 1 }

/-- updateNote (App.tsx lines 70-105): map the per-note merge over the list,
then, whenever the update carries a priority field (matched or not), run the
full zIndex recompute. -/
def updateNote (targetId : String) (u : NoteUpdate) (prev : List Note) :
    List Note :=
  let newNotes := prev.map (applyUpdate prev targetId u)
  if u.priority.isSome then recomputeAll newNotes else newNotes

/-- deleteNote (App.tsx lines 107-108) on the notes list. -/
def deleteNote (targetId : String) (notes : List Note) : List Note :=
  notes.filter fun note => !(note.id == targetId)

/-- handleDragStart (App.tsx lines 121-133) on the notes list: the dragged
note gets zIndex `maxZIndex + 1`. -/
def handleDragStart (targetId : String) (maxZIndex : ℤ) (notes : List Note) :
    List Note :=
  notes.map fun note =>
    if note.id == targetId then { note with zIndex := maxZIndex + 1 } else note

/-- The `setMaxZIndex(newZIndex)` of handleDragStart (App.tsx line 128): the
counter advances exactly when some note matches the dragged id. -/
def dragStartMaxZIndex (targetId : String) (maxZIndex : ℤ) (notes : List Note) :
    ℤ :=
  if notes.any (fun note => note.id == targetId) then maxZIndex + 1
  else maxZIndex

/-- The drag clamp of handleMouseDown's mousemove handler (Note.tsx lines
48-64): given the note's size, a proposed position and the window size,
clamp the position into the 30-percent-visible band. -/
def dragClamp (w h x y vw vh : ℚ) : ℚ × ℚ :=
  let partW := w * (3/10)
  let partH := h * (3/10)
  let minX := -(w - partW)
  let maxX := vw - partW
  let minY := -(h - partH)
  let maxY := vh - partH
  (max minX (min x maxX), max minY (min y maxY))

/-- handleDragEnd (App.tsx lines 135-171) on the notes list: if the dragged
note exists and sits outside the 30-percent-visible bounds, push it back via
updateNote; otherwise leave the list unchanged. -/
def handleDragEnd (draggedNoteId : Option String) (vw vh : ℚ)
    (notes : List Note) : List Note :=
  match draggedNoteId with
  | none => notes
  | some did =>
    match notes.find? (fun n => n.id == did) with
    | none => notes
    | some note =>
      let partW := note.width * (3/10)
      let partH := note.height * (3/10)
      let minX := -(note.width - partW)
      let maxX := vw - partW
      let minY := -(note.height - partH)
      let maxY := vh - partH
      if note.x < minX ∨ note.x > maxX ∨ note.y < minY ∨ note.y > maxY then
        updateNote did
          { x := some (max minX (min note.x maxX))
            y := some (max minY (min note.y maxY)) } notes
      else notes

/-- A resize gesture's geometry: position and size of a note. -/
structure Geom where
  x : ℚ
  y : ℚ
  width : ℚ
  height : ℚ
deriving DecidableEq

/-- The four corner resize handles of Note.tsx. -/
inductive Handle
  | se
  | sw
  | ne
  | nw
deriving DecidableEq

/-- The `switch (handle)` of handleResizeStart's mousemove handler (Note.tsx
lines 103-143): new size floored at 200 per axis, and the anchor-preserving
position adjustment computed from the post-floor actual size. -/
def resizeCore (handle : Handle) (init : Geom) (deltaX deltaY : ℚ) : Geom :=
  match handle with
  | .se =>
    { x := init.x
      y := init.y
      width := max 200 (init.width + deltaX)
      height := max 200 (init.height + deltaY) }
  | .sw =>
    let actualWidthSW := max 200 (init.width - deltaX)
    { x := init.x + (init.width - actualWidthSW)
      y := init.y
      width := max 200 (init.width - deltaX)
      height := max 200 (init.height + deltaY) }
  | .ne =>
    let actualHeightNE := max 200 (init.height - deltaY)
    { x := init.x
      y := init.y + (init.height - actualHeightNE)
      width := max 200 (init.width + deltaX)
      height := max 200 (init.height - deltaY) }
  | .nw =>
    let actualWidthNW := max 200 (init.width - deltaX)
    let actualHeightNW := max 200 (init.height - deltaY)
    { x := init.x + (init.width - actualWidthNW)
      y := init.y + (init.height - actualHeightNW)
      width := max 200 (init.width - deltaX)
      height := max 200 (init.height - deltaY) }

/-- The visible-portion bound of the resize clamp (Note.tsx lines 146-147):
at least 100 pixels or 30 percent of the new size. -/
def resizePartW (w : ℚ) : ℚ := max 100 (w * (3/10))

/-- The viewport bounds section of handleResizeStart's mousemove handler
(Note.tsx lines 145-183) applied after the switch: bounds from the new size
with the 100-pixel floor on the visible portion, sequential overflow checks
with width/height compensation for left/top handles, and the final floors of
the onUpdate call. -/
def resizeStep (handle : Handle) (init : Geom) (deltaX deltaY vw vh : ℚ) :
    Geom :=
  let core := resizeCore handle init deltaX deltaY
  let partW := resizePartW core.width
  let partH := resizePartW core.height
  let minX := -(core.width - partW)
  let maxX := vw - partW
  let minY := -(core.height - partH)
  let maxY := vh - partH
  let step1 :=
    if core.x < minX then
      { core with
        x := minX
        width :=
          if handle = .sw ∨ handle = .nw then core.width - (minX - core.x)
          else core.width }
    else core
  let step2 := if step1.x > maxX then { step1 with x := maxX } else step1
  let step3 :=
    if step2.y < minY then
      { step2 with
        y := minY
        height :=
          if handle = .ne ∨ handle = .nw then step2.height - (minY - step2.y)
          else step2.height }
    else step2
  let step4 := if step3.y > maxY then { step3 with y := maxY } else step3
  { step4 with
    width := max 200 step4.width
    height := max 200 step4.height }

/-- The anchor corner fixed by each handle: the diagonally opposite corner of
the note's rectangle. -/
def anchorOf (handle : Handle) (g : Geom) : ℚ × ℚ :=
  match handle with
  | .se => (g.x, g.y)
  | .sw => (g.x + g.width, g.y)
  | .ne => (g.x, g.y + g.height)
  | .nw => (g.x + g.width, g.y + g.height)

/-- Modelled from the spec words for the resize clamp (claim about Note.tsx
lines 145-176): identical to resizeStep except that the guaranteed-visible
portion is exactly `newSize * 0.3` — the same 30-percent clamp as drag —
without the 100-pixel floor the source applies. Used to compare the source
behaviour against the spec's description. -/
def specResizeStep (handle : Handle) (init : Geom) (deltaX deltaY vw vh : ℚ) :
    Geom :=
  let core := resizeCore handle init deltaX deltaY
  let partW := core.width * (3/10)
  let partH := core.height * (3/10)
  let minX := -(core.width - partW)
  let maxX := vw - partW
  let minY := -(core.height - partH)
  let maxY := vh - partH
  let step1 :=
    if core.x < minX then
      { core with
        x := minX
        width :=
          if handle = .sw ∨ handle = .nw then core.width - (minX - core.x)
          else core.width }
    else core
  let step2 := if step1.x > maxX then { step1 with x := maxX } else step1
  let step3 :=
    if step2.y < minY then
      { step2 with
        y := minY
        height :=
          if handle = .ne ∨ handle = .nw then step2.height - (minY - step2.y)
          else step2.height }
    else step2
  let step4 := if step3.y > maxY then { step3 with y := maxY } else step3
  { step4 with
    width := max 200 step4.width
    height := max 200 step4.height }

/-- Forget the zIndex of a note (used to state which fields an operation
leaves untouched). -/
def eraseZIndex (n : Note) : Note := { n with zIndex := 0 }

/-- A note's zIndex lies strictly inside its priority's 1000-wide band. -/
abbrev InBand (n : Note) : Prop :=
  (6 - n.priority) * 1000 + 1 ≤ n.zIndex ∧
  n.zIndex ≤ (6 - n.priority) * 1000 + 999

/-- Well-formed store state: every note has a priority in 1..5 and a zIndex
strictly inside its priority band. -/
abbrev WFNotes (l : List Note) : Prop :=
  ∀ n ∈ l, (1 ≤ n.priority ∧ n.priority ≤ 5) ∧ InBand n

/-- The layering invariant of the spec: a note of numerically smaller
priority stacks strictly above any note of larger priority. -/
abbrev LayerInv (l : List Note) : Prop :=
  ∀ a ∈ l, ∀ b ∈ l, a.priority < b.priority → b.zIndex < a.zIndex

/-- A sample note with the given id, priority and zIndex and fixed geometry,
used to build concrete store states. -/
def baseNote (i : String) (p z : ℤ) : Note :=
  { id := i
    x := 0
    y := 0
    width := 300
    height := 250
    content := ""
    color := "yellow"
    priority := p
    zIndex := z }

/-! ## Helper lemmas -/

lemma clamp_axis_visible (s v c : ℚ) (hs : 0 ≤ s) (hv : s * (3/10) ≤ v)
    (h1 : -(s - s * (3/10)) ≤ c) (h2 : c ≤ v - s * (3/10)) :
    s * (3/10) ≤ min (c + s) v - max c 0 := by
  rw [le_sub_iff_add_le]
  apply le_min
  · rcases le_total 0 c with h4 | h4
    · rw [max_eq_left h4]; linarith
    · rw [max_eq_right h4]; linarith
  · rcases le_total 0 c with h4 | h4
    · rw [max_eq_left h4]; linarith
    · rw [max_eq_right h4]; linarith

/-! ## Claim C8 -/

/-- Counterexample to claim C8: the 30-percent-visible guarantee fails for
notes wider than viewportWidth / 0.3, and such notes are reachable — the
se-resize width `Math.max(200, initialWidth + deltaX)` is unbounded above
and updateNote stores geometry unclamped. For a 4000-wide note in a
1024-wide viewport, every proposal is clamped to maxX = -176 at the right,
leaving exactly 1024 px of width inside `[0, 1024]`, which is less than the
claimed 30 percent (1200 px). -/
theorem drag_clamp_oversized_note_cex :
    (dragClamp 4000 250 10000 0 1024 768).1 = -176 ∧
    min ((dragClamp 4000 250 10000 0 1024 768).1 + 4000) 1024 -
      max (dragClamp 4000 250 10000 0 1024 768).1 0 = 1024 ∧
    (1024 : ℚ) < 4000 * (3/10) := by
  refine ⟨?_, ?_, by norm_num⟩ <;>
    norm_num [dragClamp, max_def, min_def]

/-- Claim C8 amended: the drag clamp returns `x' = clamp(x, minX, maxX)` and
`y' = clamp(y, minY, maxY)` with `minX = -(width - 0.3*width)`,
`maxX = viewportWidth - 0.3*width` (symmetric for y) for every note and
proposal, and the clamped position keeps at least 30 percent of the note's
width and height inside `[0, viewportWidth] x [0, viewportHeight]` provided
the note size is nonnegative and its 30-percent portion fits in the viewport
(`0.3*width <= viewportWidth`, `0.3*height <= viewportHeight`); for larger
notes the guarantee fails (see the counterexample). -/
theorem drag_clamp_formula_and_visibility (w h x y vw vh : ℚ)
    (hw : 0 ≤ w) (hh : 0 ≤ h)
    (hvw : w * (3/10) ≤ vw) (hvh : h * (3/10) ≤ vh) :
    dragClamp w h x y vw vh =
      (max (-(w - w * (3/10))) (min x (vw - w * (3/10))),
        max (-(h - h * (3/10))) (min y (vh - h * (3/10)))) ∧
    w * (3/10) ≤
      min ((dragClamp w h x y vw vh).1 + w) vw -
        max (dragClamp w h x y vw vh).1 0 ∧
    h * (3/10) ≤
      min ((dragClamp w h x y vw vh).2 + h) vh -
        max (dragClamp w h x y vw vh).2 0 := by
  have hx : (dragClamp w h x y vw vh).1 =
      max (-(w - w * (3/10))) (min x (vw - w * (3/10))) := rfl
  have hy : (dragClamp w h x y vw vh).2 =
      max (-(h - h * (3/10))) (min y (vh - h * (3/10))) := rfl
  refine ⟨rfl, ?_, ?_⟩
  · rw [hx]
    apply clamp_axis_visible _ _ _ hw hvw (le_max_left _ _)
    apply max_le (by linarith) (le_trans (min_le_right _ _) (le_refl _))
  · rw [hy]
    apply clamp_axis_visible _ _ _ hh hvh (le_max_left _ _)
    apply max_le (by linarith) (le_trans (min_le_right _ _) (le_refl _))

/-- Witness for C8 at a concrete note and proposal: a 300x250 note proposed
far off-screen in a 1024x768 viewport. -/
theorem drag_clamp_formula_and_visibility_witness :
    (0:ℚ) ≤ 300 ∧ (0:ℚ) ≤ 250 ∧
      (300:ℚ) * (3/10) ≤ 1024 ∧ (250:ℚ) * (3/10) ≤ 768 ∧
      (300:ℚ) * (3/10) ≤
        min ((dragClamp 300 250 (-5000) 9000 1024 768).1 + 300) 1024 -
          max (dragClamp 300 250 (-5000) 9000 1024 768).1 0 :=
  ⟨by norm_num, by norm_num, by norm_num, by norm_num,
    (drag_clamp_formula_and_visibility 300 250 (-5000) 9000 1024 768
      (by norm_num) (by norm_num) (by norm_num) (by norm_num)).2.1⟩

/-! ## Resize helper lemmas -/

lemma resizeCore_width_min (handle : Handle) (init : Geom) (dx dy : ℚ) :
    200 ≤ (resizeCore handle init dx dy).width := by
  cases handle <;> exact le_max_left _ _

lemma resizeCore_height_min (handle : Handle) (init : Geom) (dx dy : ℚ) :
    200 ≤ (resizeCore handle init dx dy).height := by
  cases handle <;> exact le_max_left _ _

lemma resizeStep_no_clamp (handle : Handle) (init : Geom) (dx dy vw vh : ℚ)
    (h1 : ¬ ((resizeCore handle init dx dy).x <
      -((resizeCore handle init dx dy).width -
        resizePartW (resizeCore handle init dx dy).width)))
    (h2 : ¬ ((resizeCore handle init dx dy).x >
      vw - resizePartW (resizeCore handle init dx dy).width))
    (h3 : ¬ ((resizeCore handle init dx dy).y <
      -((resizeCore handle init dx dy).height -
        resizePartW (resizeCore handle init dx dy).height)))
    (h4 : ¬ ((resizeCore handle init dx dy).y >
      vh - resizePartW (resizeCore handle init dx dy).height)) :
    resizeStep handle init dx dy vw vh = resizeCore handle init dx dy := by
  simp only [resizeStep]
  rw [if_neg h1, if_neg h2, if_neg h3, if_neg h4,
    max_eq_right (resizeCore_width_min handle init dx dy),
    max_eq_right (resizeCore_height_min handle init dx dy)]

/-! ## Claim C10 -/

/-- Claim C10: a nw-handle resize with `deltaX = -50, deltaY = -30` from
`width=300, height=250, x=100, y=100` yields `width=350, height=280, x=50,
y=70`, keeping the bottom-right anchor at `(400, 350)`, provided the
viewport is large enough that no viewport clamp fires (here `vw ≥ 155` and
`vh ≥ 170` suffice). -/
theorem resize_nw_scenario (vw vh : ℚ) (hvw : 155 ≤ vw) (hvh : 170 ≤ vh) :
    resizeStep .nw ⟨100, 100, 300, 250⟩ (-50) (-30) vw vh = ⟨50, 70, 350, 280⟩ ∧
    anchorOf .nw (resizeStep .nw ⟨100, 100, 300, 250⟩ (-50) (-30) vw vh) =
      (400, 350) ∧
    anchorOf .nw (⟨100, 100, 300, 250⟩ : Geom) = (400, 350) := by
  have hcore : resizeCore .nw ⟨100, 100, 300, 250⟩ (-50) (-30) =
      ⟨50, 70, 350, 280⟩ := by
    norm_num [resizeCore, max_def]
  have e : resizeStep .nw ⟨100, 100, 300, 250⟩ (-50) (-30) vw vh =
      ⟨50, 70, 350, 280⟩ := by
    rw [resizeStep_no_clamp .nw ⟨100, 100, 300, 250⟩ (-50) (-30) vw vh] <;>
      simp only [hcore] <;> norm_num [resizePartW, max_def]
    · linarith
    · linarith
  refine ⟨e, ?_, by norm_num [anchorOf]⟩
  rw [e]
  norm_num [anchorOf]

/-- Witness for C10 at the 1024x768 viewport. -/
theorem resize_nw_scenario_witness :
    (155:ℚ) ≤ 1024 ∧ (170:ℚ) ≤ 768 ∧
      resizeStep .nw ⟨100, 100, 300, 250⟩ (-50) (-30) 1024 768 =
        ⟨50, 70, 350, 280⟩ :=
  ⟨by norm_num, by norm_num,
    (resize_nw_scenario 1024 768 (by norm_num) (by norm_num)).1⟩

/-! ## Claim C7 -/

/-- Counterexample to claim C7: for handle se the top-left corner is NOT
always unchanged — when the viewport clamp fires (here a note at x=850 in a
1000-wide viewport grown to width 2000), the source moves x from 850 to
maxX = 400, so the se anchor moves. -/
theorem resize_anchor_moves_under_clamp_cex :
    anchorOf .se (resizeStep .se ⟨850, 0, 200, 200⟩ 1800 0 1000 768) =
      (400, 0) ∧
    anchorOf .se (⟨850, 0, 200, 200⟩ : Geom) = (850, 0) ∧
    ((400:ℚ), (0:ℚ)) ≠ ((850:ℚ), (0:ℚ)) := by
  refine ⟨?_, by norm_num [anchorOf], by norm_num⟩
  norm_num [resizeStep, resizeCore, resizePartW, anchorOf, max_def]

/-- Claim C7 amended: the anchor corner (top-left for se, top-right for sw,
bottom-left for ne, bottom-right for nw) is stationary across a resize step
provided the viewport clamp does not fire, i.e. the anchor-adjusted
geometry already lies inside the clamp bounds. -/
theorem resize_anchor_fixed_without_clamp (handle : Handle) (init : Geom)
    (dx dy vw vh : ℚ)
    (h1 : ¬ ((resizeCore handle init dx dy).x <
      -((resizeCore handle init dx dy).width -
        resizePartW (resizeCore handle init dx dy).width)))
    (h2 : ¬ ((resizeCore handle init dx dy).x >
      vw - resizePartW (resizeCore handle init dx dy).width))
    (h3 : ¬ ((resizeCore handle init dx dy).y <
      -((resizeCore handle init dx dy).height -
        resizePartW (resizeCore handle init dx dy).height)))
    (h4 : ¬ ((resizeCore handle init dx dy).y >
      vh - resizePartW (resizeCore handle init dx dy).height)) :
    anchorOf handle (resizeStep handle init dx dy vw vh) =
      anchorOf handle init := by
  rw [resizeStep_no_clamp handle init dx dy vw vh h1 h2 h3 h4]
  cases handle <;>
    simp only [anchorOf, resizeCore, Prod.mk.injEq] <;>
    constructor <;> ring_nf

/-- Witness for C7 amended: a small se-resize far from the viewport edges. -/
theorem resize_anchor_fixed_without_clamp_witness :
    anchorOf .se (resizeStep .se ⟨10, 10, 300, 250⟩ 5 5 1024 768) =
      anchorOf .se (⟨10, 10, 300, 250⟩ : Geom) := by
  apply resize_anchor_fixed_without_clamp .se ⟨10, 10, 300, 250⟩ 5 5 1024 768 <;>
    norm_num [resizeCore, resizePartW, max_def]

/-! ## Claim C5 -/

/-- Counterexample to claim C5: the resize clamp is NOT the plain 30-percent
clamp of drag — its visible portion is floored at 100 pixels. For a 200-wide
note at x = -140 (a position the drag clamp itself allows), the source clamp
moves x to -100, while the spec-described plain 30-percent clamp would leave
it at -140. -/
theorem resize_clamp_visible_portion_cex :
    resizeStep .se ⟨-140, 0, 200, 200⟩ 0 0 1024 768 = ⟨-100, 0, 200, 200⟩ ∧
    specResizeStep .se ⟨-140, 0, 200, 200⟩ 0 0 1024 768 =
      ⟨-140, 0, 200, 200⟩ ∧
    ((-100:ℚ) ≠ (-140:ℚ)) := by
  refine ⟨?_, ?_, by norm_num⟩
  · norm_num [resizeStep, resizeCore, resizePartW, max_def]
    try decide
  · norm_num [specResizeStep, resizeCore, max_def]
    try decide

/-- Claim C5 amended: the resize viewport clamp has the drag clamp's shape
computed with the new width/height, but its guaranteed-visible portion is
`max(100, newSize * 0.3)`; it coincides with the plain 30-percent clamp of
the spec exactly when both new dimensions reach 1000/3 pixels, as captured
by these hypotheses on the gesture. -/
theorem resize_clamp_matches_spec_above_threshold (handle : Handle)
    (init : Geom) (dx dy vw vh : ℚ)
    (hw1 : 1000/3 ≤ init.width + dx) (hw2 : 1000/3 ≤ init.width - dx)
    (hh1 : 1000/3 ≤ init.height + dy) (hh2 : 1000/3 ≤ init.height - dy) :
    resizeStep handle init dx dy vw vh = specResizeStep handle init dx dy vw vh := by
  have hw : 1000/3 ≤ (resizeCore handle init dx dy).width := by
    cases handle <;>
      exact le_trans (by linarith) (le_max_right _ _)
  have hh : 1000/3 ≤ (resizeCore handle init dx dy).height := by
    cases handle <;>
      exact le_trans (by linarith) (le_max_right _ _)
  have hpw : resizePartW (resizeCore handle init dx dy).width =
      (resizeCore handle init dx dy).width * (3/10) := by
    rw [resizePartW, max_eq_right]; linarith
  have hph : resizePartW (resizeCore handle init dx dy).height =
      (resizeCore handle init dx dy).height * (3/10) := by
    rw [resizePartW, max_eq_right]; linarith
  simp only [resizeStep, specResizeStep, hpw, hph]

/-- Witness for C5 amended: a 400x400 note resized by (10, 10). -/
theorem resize_clamp_matches_spec_above_threshold_witness :
    resizeStep .se ⟨0, 0, 400, 400⟩ 10 10 1024 768 =
      specResizeStep .se ⟨0, 0, 400, 400⟩ 10 10 1024 768 :=
  resize_clamp_matches_spec_above_threshold .se ⟨0, 0, 400, 400⟩ 10 10 1024 768
    (by norm_num) (by norm_num) (by norm_num) (by norm_num)

/-! ## Layering helper lemmas -/

lemma foldl_max_le (l : List ℤ) (a c : ℤ) (ha : a ≤ c) (hl : ∀ x ∈ l, x ≤ c) :
    l.foldl max a ≤ c := by
  induction l generalizing a with
  | nil => exact ha
  | cons b t ih =>
    exact ih (max a b) (max_le ha (hl b (List.mem_cons_self b t)))
      (fun x hx => hl x (List.mem_cons_of_mem b hx))

lemma le_foldl_max (l : List ℤ) (a : ℤ) : a ≤ l.foldl max a := by
  induction l generalizing a with
  | nil => exact le_refl a
  | cons b t ih => exact le_trans (le_max_left a b) (ih (max a b))

lemma tmod_band (p off : ℤ) (hp2 : p ≤ 5) (h1 : 1 ≤ off)
    (h2 : off ≤ 999) : Int.tmod ((6 - p) * 1000 + off) 1000 = off := by
  have hz : 0 ≤ (6 - p) * 1000 + off := by omega
  rw [Int.tmod_eq_emod hz (by norm_num)]
  have h3 : (6 - p) * 1000 + off = off + 1000 * (6 - p) := by ring
  rw [h3, Int.add_mul_emod_self_left]
  exact Int.emod_eq_of_lt (by omega) (by omega)

lemma maxInPriority_nonneg (p : ℤ) (l : List Note) (hwf : WFNotes l) :
    0 ≤ maxInPriority p l := by
  rw [maxInPriority]
  cases hm : (l.filter fun n => n.priority == p).map
      (fun n => Int.tmod n.zIndex 1000) with
  | nil => exact le_refl 0
  | cons a rest =>
    have ha : a ∈ (l.filter fun n => n.priority == p).map
        (fun n => Int.tmod n.zIndex 1000) := by
      rw [hm]; exact List.mem_cons_self _ _
    obtain ⟨n, hn, rfl⟩ := List.mem_map.1 ha
    have hnl : n ∈ l := List.mem_of_mem_filter hn
    obtain ⟨⟨hp1, hp2⟩, hb1, hb2⟩ := hwf n hnl
    have hz : 0 ≤ n.zIndex := by omega
    have hnn : 0 ≤ Int.tmod n.zIndex 1000 := by
      rw [Int.tmod_eq_emod hz (by norm_num)]
      exact Int.emod_nonneg _ (by norm_num)
    exact le_trans hnn (le_foldl_max rest _)

lemma calculateZIndex_band (p : ℤ) (l : List Note)
    (hwf : WFNotes l) (hmax : maxInPriority p l ≤ 998) :
    (6 - p) * 1000 + 1 ≤ calculateZIndex p l ∧
      calculateZIndex p l ≤ (6 - p) * 1000 + 999 := by
  have h0 : 0 ≤ maxInPriority p l := maxInPriority_nonneg p l hwf
  rw [calculateZIndex]
  omega

lemma applyUpdate_width (prev : List Note) (t : String) (u : NoteUpdate)
    (n : Note) :
    (applyUpdate prev t u n).width =
      if n.id == t then u.width.getD n.width else n.width := by
  rw [applyUpdate]
  split_ifs with h1 h2 h3 <;> rfl

lemma applyUpdate_height (prev : List Note) (t : String) (u : NoteUpdate)
    (n : Note) :
    (applyUpdate prev t u n).height =
      if n.id == t then u.height.getD n.height else n.height := by
  rw [applyUpdate]
  split_ifs with h1 h2 h3 <;> rfl

lemma applyUpdate_id (prev : List Note) (t : String) (u : NoteUpdate)
    (n : Note) :
    (applyUpdate prev t u n).id =
      if n.id == t then u.id.getD n.id else n.id := by
  rw [applyUpdate]
  split_ifs with h1 h2 h3 <;> rfl

lemma applyUpdate_priority (prev : List Note) (t : String) (u : NoteUpdate)
    (n : Note) :
    (applyUpdate prev t u n).priority =
      if n.id == t then u.priority.getD n.priority else n.priority := by
  rw [applyUpdate]
  split_ifs with h1 h2 h3 <;> rfl

lemma recomputeAll_mem (l : List Note) (n' : Note)
    (hn' : n' ∈ recomputeAll l) :
    ∃ n ∈ l, n'.id = n.id ∧ n'.x = n.x ∧ n'.y = n.y ∧ n'.width = n.width ∧
      n'.height = n.height ∧ n'.priority = n.priority := by
  obtain ⟨n, hn, rfl⟩ := List.mem_map.1 hn'
  exact ⟨n, hn, rfl, rfl, rfl, rfl, rfl, rfl⟩

/-! ## Claim C1 -/

/-- Counterexample to claim C1: updateNote does NOT re-apply a geometry
clamp — an update carrying `width := 50` leaves a note of width 50 < 200 in
the store. -/
theorem updateNote_no_geometry_clamp_cex :
    ¬ (∀ n ∈ updateNote "a" { width := some 50 } [baseNote "a" 3 3001],
        200 ≤ n.width ∧ 200 ≤ n.height) := by decide

/-- Claim C1 amended: updateNote itself performs no geometry clamping; the
200-pixel minimum survives updates because every resize-gesture update is
floored at 200 by the resize handler before it reaches the store. Part one:
every resize step outputs width and height at least 200. Part two: updateNote
keeps all widths/heights at least 200 whenever the update's width/height
fields (if present) are at least 200 and the store already satisfied the
minimum. -/
theorem min_size_via_resize_floors :
    (∀ (handle : Handle) (init : Geom) (dx dy vw vh : ℚ),
      200 ≤ (resizeStep handle init dx dy vw vh).width ∧
      200 ≤ (resizeStep handle init dx dy vw vh).height) ∧
    (∀ (targetId : String) (u : NoteUpdate) (l : List Note),
      (∀ w, u.width = some w → (200:ℚ) ≤ w) →
      (∀ a, u.height = some a → (200:ℚ) ≤ a) →
      (∀ n ∈ l, 200 ≤ n.width ∧ 200 ≤ n.height) →
      ∀ n ∈ updateNote targetId u l, 200 ≤ n.width ∧ 200 ≤ n.height) := by
  constructor
  · intro handle init dx dy vw vh
    constructor <;> simp only [resizeStep] <;> exact le_max_left _ _
  · intro t u l hw hh hl n hn
    have key : ∀ m ∈ l.map (applyUpdate l t u),
        200 ≤ m.width ∧ 200 ≤ m.height := by
      intro m hm
      obtain ⟨n0, hn0, rfl⟩ := List.mem_map.1 hm
      rw [applyUpdate_width, applyUpdate_height]
      constructor <;> split_ifs with hid
      · cases hu : u.width with
        | none => exact (hl n0 hn0).1
        | some w => exact hw w hu
      · exact (hl n0 hn0).1
      · cases hu : u.height with
        | none => exact (hl n0 hn0).2
        | some a => exact hh a hu
      · exact (hl n0 hn0).2
    rw [updateNote] at hn
    split_ifs at hn with hp
    · obtain ⟨m, hm, _, _, _, hwid, hhei, _⟩ := recomputeAll_mem _ _ hn
      rw [hwid, hhei]
      exact key m hm
    · exact key n hn

/-- Witness for C1 amended: the second part applied to a concrete in-range
update of a concrete store. -/
theorem min_size_via_resize_floors_witness :
    ∀ n ∈ updateNote "a" { width := some 250 } [baseNote "a" 3 3001],
      200 ≤ n.width ∧ 200 ≤ n.height := by
  apply min_size_via_resize_floors.2
  · intro w hw
    cases hw
    norm_num
  · intro a ha
    cases ha
  · decide

lemma applyUpdate_unmatched (prev : List Note) (t : String) (u : NoteUpdate)
    (n : Note) (h : (n.id == t) = false) : applyUpdate prev t u n = n := by
  rw [applyUpdate]
  simp [h]

lemma map_id_of_mem {l : List Note} {f : Note → Note}
    (h : ∀ n ∈ l, f n = n) : l.map f = l := by
  induction l with
  | nil => rfl
  | cons a t ih =>
    simp only [List.map_cons, h a (List.mem_cons_self a t)]
    rw [ih (fun n hn => h n (List.mem_cons_of_mem a hn))]

lemma map_proj_eq {α : Type} (l : List Note) (f : Note → Note) (g : Note → α)
    (h : ∀ n ∈ l, g (f n) = g n) : (l.map f).map g = l.map g := by
  induction l with
  | nil => rfl
  | cons a t ih =>
    simp only [List.map_cons, h a (List.mem_cons_self a t)]
    rw [ih (fun n hn => h n (List.mem_cons_of_mem a hn))]

lemma recomputeAll_eraseZ (l : List Note) :
    (recomputeAll l).map eraseZIndex = l.map eraseZIndex := by
  rw [recomputeAll, List.map_map]
  rfl

lemma recomputeAll_ids (l : List Note) :
    (recomputeAll l).map Note.id = l.map Note.id := by
  rw [recomputeAll]
  exact map_proj_eq _ _ Note.id (fun n _ => rfl)

/-! ## Claim C3 -/

/-- Counterexample to claim C3: an update with an unknown id whose fields
include a priority is NOT a complete no-op — the global recompute still runs
and rewrites existing notes' zIndexes (here the note `a`, stacked at 3003
after a bring-to-front, drops back to 3001). -/
theorem update_unknown_id_priority_recompute_cex :
    (∀ n ∈ ([baseNote "a" 3 3003, baseNote "b" 3 3002] : List Note),
      ¬ n.id = "zzz") ∧
    updateNote "zzz" { priority := some 1 }
        [baseNote "a" 3 3003, baseNote "b" 3 3002] ≠
      [baseNote "a" 3 3003, baseNote "b" 3 3002] := by decide

/-- Claim C3 amended: an update whose id matches no note is a complete no-op
when it carries no priority field; when it carries one, every note's fields
other than zIndex are still unchanged, but zIndexes are rewritten by the
global recompute (and can change, as the counterexample shows). -/
theorem update_unknown_id_noop (targetId : String) (u : NoteUpdate)
    (l : List Note) (hid : ∀ n ∈ l, (n.id == targetId) = false) :
    (u.priority = none → updateNote targetId u l = l) ∧
    (updateNote targetId u l).map eraseZIndex = l.map eraseZIndex := by
  have hmap : l.map (applyUpdate l targetId u) = l :=
    map_id_of_mem (fun n hn => applyUpdate_unmatched _ _ _ _ (hid n hn))
  constructor
  · intro hp
    simp [updateNote, hmap, hp]
  · rw [updateNote, hmap]
    split_ifs with hp
    · exact recomputeAll_eraseZ l
    · rfl

/-- Witness for C3 amended, at a concrete store and unknown id. -/
theorem update_unknown_id_noop_witness :
    (updateNote "zzz" { priority := some 2 } [baseNote "a" 3 3001]).map
        eraseZIndex =
      ([baseNote "a" 3 3001] : List Note).map eraseZIndex :=
  (update_unknown_id_noop "zzz" { priority := some 2 } [baseNote "a" 3 3001]
    (by decide)).2

/-! ## Claim C6 -/

/-- Counterexample to claim C6: an update whose partial fields include an id
overwrites the stored id — update cannot alter the id only as long as no id
field is passed. -/
theorem update_can_overwrite_id_cex :
    (updateNote "a" { id := some "z" } [baseNote "a" 3 3001]).map Note.id =
      ["z"] ∧ ("z" : String) ≠ "a" := by decide

/-- Claim C6 amended: the stored ids are preserved by updateNote whenever the
update record carries no id field (as is the case for every update the app
issues), by handleDragStart, and by deleteNote (which only removes the
matching id); uniqueness of generated ids is probabilistic (Math.random) and
is not enforced by the store. -/
theorem ids_preserved_without_id_field (targetId : String) (u : NoteUpdate)
    (l : List Note) (maxZ : ℤ) (hid : u.id = none) :
    (updateNote targetId u l).map Note.id = l.map Note.id ∧
    (handleDragStart targetId maxZ l).map Note.id = l.map Note.id ∧
    (deleteNote targetId l).map Note.id =
      (l.map Note.id).filter (fun i => !(i == targetId)) := by
  have happly : ∀ n ∈ l, (applyUpdate l targetId u n).id = n.id := by
    intro n hn
    rw [applyUpdate_id]
    split_ifs with h
    · rw [hid]; rfl
    · rfl
  refine ⟨?_, ?_, ?_⟩
  · rw [updateNote]
    split_ifs with hp
    · rw [recomputeAll_ids]
      exact map_proj_eq _ _ Note.id happly
    · exact map_proj_eq _ _ _ happly
  · apply map_proj_eq
    intro n _
    split_ifs with h <;> rfl
  · rw [deleteNote, List.filter_map]
    rfl

/-- Witness for C6 amended, at a concrete geometry update. -/
theorem ids_preserved_without_id_field_witness :
    (updateNote "a" { x := some 5 } [baseNote "a" 3 3001]).map Note.id =
      ([baseNote "a" 3 3001] : List Note).map Note.id :=
  (ids_preserved_without_id_field "a" { x := some 5 } [baseNote "a" 3 3001] 1
    rfl).1

/-! ## Claim C9 -/

/-- Counterexample to claim C9: creation zIndex is base plus the MAXIMAL
in-band offset plus one, not base plus the same-priority count plus one. In
the store `[a (priority 3, zIndex 3002)]` — reachable by creating `a` and
then moving it once — the next created note gets zIndex 3003, while the
claim's count formula yields 3002. -/
theorem create_zindex_max_not_count_cex :
    (createNote [baseNote "a" 3 3002] "b" 0 0 300 250 1024 768).map
        (fun n => (n.id, n.zIndex)) = [("a", 3002), ("b", 3003)] ∧
    (3000 +
      ((([baseNote "a" 3 3002] : List Note).filter
        fun n => n.priority == 3)).length + 1 : ℤ) = 3002 ∧
    ((3003 : ℤ) ≠ 3002) := by decide

/-- Claim C9 amended: a created note is appended with priority 3 and zIndex
`base + maxInPriority + 1`; this equals `base + count + 1` exactly when the
maximal in-band offset of the priority-3 notes equals their count — true in
particular for stores built by creations alone, which yields the claim's
3001/3002 scenario. -/
theorem create_zindex_formula (l : List Note) (newId : String)
    (x y w h vw vh : ℚ)
    (hcount : maxInPriority 3 l =
      ((l.filter fun n => n.priority == 3)).length) :
    ∃ n : Note, createNote l newId x y w h vw vh = l ++ [n] ∧
      n.priority = 3 ∧ n.id = newId ∧
      n.zIndex =
        3000 + ((l.filter fun n => n.priority == 3)).length + 1 := by
  refine ⟨_, rfl, rfl, rfl, ?_⟩
  show calculateZIndex 3 l = _
  rw [calculateZIndex, hcount]
  norm_num

/-- Witness for C9 amended: creation in the empty store yields zIndex 3001,
matching the claim's first-note scenario. -/
theorem create_zindex_formula_witness :
    ∃ n : Note, createNote [] "a" 0 0 300 250 1024 768 = [] ++ [n] ∧
      n.priority = 3 ∧ n.id = "a" ∧
      n.zIndex =
        3000 + ((([] : List Note).filter fun n => n.priority == 3)).length + 1 :=
  create_zindex_formula [] "a" 0 0 300 250 1024 768 (by decide)

lemma findIdx_id_get (g : List Note) (hnd : (g.map Note.id).Nodup) :
    ∀ (i : ℕ) (h : i < g.length),
      g.findIdx (fun m => m.id == (g.get ⟨i, h⟩).id) = i := by
  induction g with
  | nil => intro i h; exact absurd h (Nat.not_lt_zero i)
  | cons a t ih =>
    intro i h
    cases i with
    | zero => simp [List.findIdx_cons]
    | succ j =>
      have hj : j < t.length := Nat.lt_of_succ_lt_succ h
      have hnd' := hnd
      rw [List.map_cons, List.nodup_cons] at hnd'
      have hmem : (t.get ⟨j, hj⟩).id ∈ t.map Note.id :=
        List.mem_map_of_mem Note.id (t.get_mem j hj)
      have hne : (a.id == (t.get ⟨j, hj⟩).id) = false := by
        rw [beq_eq_false_iff_ne]
        intro e
        exact hnd'.1 (e ▸ hmem)
      have hget : (a :: t).get ⟨j + 1, h⟩ = t.get ⟨j, hj⟩ := rfl
      rw [hget, List.findIdx_cons, hne]
      simp only [cond_false]
      rw [ih hnd'.2 j hj]

lemma recomputeAll_mem_image (l : List Note) (n : Note) (hn : n ∈ l) :
    ∃ n' ∈ recomputeAll l, n'.id = n.id ∧ n'.priority = n.priority ∧
      n'.zIndex = (6 - n.priority) * 1000 +
        ((((l.filter fun m => m.priority == n.priority).findIdx
          fun m => m.id == n.id) : ℕ) : ℤ) + 1 :=
  ⟨_, List.mem_map_of_mem _ hn, rfl, rfl, rfl⟩

lemma recompute_offsets (l : List Note) (hnd : (l.map Note.id).Nodup) (p : ℤ) :
    ((recomputeAll l).filter (fun n => n.priority == p)).map Note.zIndex =
      (List.range ((l.filter (fun n => n.priority == p)).length)).map
        (fun i : ℕ => (6 - p) * 1000 + (i : ℤ) + 1) := by
  rw [recomputeAll, List.filter_map]
  show ((List.filter (fun n => n.priority == p) l).map _).map Note.zIndex = _
  have hndg : ((l.filter (fun n => n.priority == p)).map Note.id).Nodup :=
    hnd.sublist (List.Sublist.map Note.id (List.filter_sublist l))
  apply List.ext_get
  · simp
  · intro i h1 h2
    have hi : i < (l.filter (fun n => n.priority == p)).length := by
      simpa using h1
    have hp : ((l.filter (fun n => n.priority == p)).get ⟨i, hi⟩).priority = p := by
      have hmem := List.get_mem (l.filter (fun n => n.priority == p)) i hi
      have := (List.mem_filter.1 hmem).2
      exact beq_iff_eq.1 this
    simp only [List.get_map, List.get_range]
    rw [hp, findIdx_id_get _ hndg i hi]

/-! ## Claim C4 -/

/-- Counterexample to claim C4: the recompute on priority change orders
same-priority siblings by ARRAY (insertion) order, not by current stacking
order. Before the update, note `a` (zIndex 3003, brought to front) stacks
above `b` (3002); changing `c`'s priority from 2 to 1 reassigns `a` to 3001
and `b` to 3002, reversing their relative stacking. -/
theorem priority_recompute_array_order_cex :
    (updateNote "c" { priority := some 1 }
        [baseNote "a" 3 3003, baseNote "b" 3 3002, baseNote "c" 2 4001]).map
        (fun n => (n.id, n.priority, n.zIndex)) =
      [("a", 3, 3001), ("b", 3, 3002), ("c", 1, 5001)] ∧
    ([baseNote "a" 3 3003, baseNote "b" 3 3002, baseNote "c" 2 4001] :
        List Note).map (fun n => (n.id, n.priority, n.zIndex)) =
      [("a", 3, 3003), ("b", 3, 3002), ("c", 2, 4001)] ∧
    ((3002:ℤ) < 3003 ∧ (3001:ℤ) < 3002) := by decide

/-- Claim C4 amended: on a priority-carrying update every note's zIndex is
recomputed as `(6 - priority) * 1000` plus its index among same-priority
notes in array (insertion) order plus one — sequential offsets by array
position, not by current stacking position. In particular the note moved to
priority 1 receives a zIndex in `[5001, 5999]` when the store holds at most
999 notes, and (for distinct ids) each priority group's zIndexes are exactly
base+1, base+2, ... in array order. -/
theorem priority_recompute_band_and_array_order (l : List Note)
    (targetId : String) :
    (l.length ≤ 999 → (∃ n0 ∈ l, n0.id = targetId) →
      ∃ n ∈ updateNote targetId { priority := some 1 } l,
        n.id = targetId ∧ n.priority = 1 ∧
          5001 ≤ n.zIndex ∧ n.zIndex ≤ 5999) ∧
    (∀ (q p : ℤ), (l.map Note.id).Nodup →
      ((updateNote targetId { priority := some q } l).filter
          (fun n => n.priority == p)).map Note.zIndex =
        (List.range (((updateNote targetId { priority := some q } l).filter
          (fun n => n.priority == p)).length)).map
          (fun i : ℕ => (6 - p) * 1000 + (i : ℤ) + 1)) := by
  constructor
  · intro hlen hmem
    obtain ⟨n0, hn0, hid0⟩ := hmem
    have hupd : updateNote targetId { priority := some 1 } l =
        recomputeAll (l.map (applyUpdate l targetId { priority := some 1 })) := by
      simp [updateNote]
    have hm0 : applyUpdate l targetId { priority := some 1 } n0 ∈
        l.map (applyUpdate l targetId { priority := some 1 }) :=
      List.mem_map_of_mem _ hn0
    have hid' : (applyUpdate l targetId { priority := some 1 } n0).id =
        targetId := by
      rw [applyUpdate_id]
      split_ifs with h
      · exact hid0
      · exact absurd (beq_iff_eq.2 hid0) (by simpa using h)
    have hpri' : (applyUpdate l targetId { priority := some 1 } n0).priority =
        1 := by
      rw [applyUpdate_priority]
      split_ifs with h
      · rfl
      · exact absurd (beq_iff_eq.2 hid0) (by simpa using h)
    obtain ⟨n', hn', hidn, hprin, hzn⟩ :=
      recomputeAll_mem_image _ _ hm0
    rw [hpri'] at hzn hprin
    refine ⟨n', by rw [hupd]; exact hn', by rw [hidn, hid'], hprin, ?_, ?_⟩
    · rw [hzn]
      have : (0:ℤ) ≤
          (((l.map (applyUpdate l targetId { priority := some 1 })).filter
            fun m => m.priority == 1).findIdx
              fun m => m.id == (applyUpdate l targetId
                { priority := some 1 } n0).id : ℕ) := Int.ofNat_nonneg _
      omega
    · rw [hzn]
      have hidx : ((l.map (applyUpdate l targetId { priority := some 1 })).filter
          fun m => m.priority == 1).findIdx
            (fun m => m.id == (applyUpdate l targetId
              { priority := some 1 } n0).id) <
          ((l.map (applyUpdate l targetId { priority := some 1 })).filter
            fun m => m.priority == 1).length := by
        apply List.findIdx_lt_length_of_exists
        refine ⟨applyUpdate l targetId { priority := some 1 } n0,
          List.mem_filter.2 ⟨hm0, ?_⟩, by simp⟩
        simp [hpri']
      have hflen : ((l.map (applyUpdate l targetId { priority := some 1 })).filter
          fun m => m.priority == 1).length ≤
          (l.map (applyUpdate l targetId { priority := some 1 })).length :=
        List.length_filter_le _ _
      have hmlen : (l.map (applyUpdate l targetId
          { priority := some 1 })).length = l.length := List.length_map _ _
      omega
  · intro q p hnd
    have happly : ∀ n ∈ l,
        (applyUpdate l targetId { priority := some q } n).id = n.id := by
      intro n hn
      rw [applyUpdate_id]
      split_ifs with h <;> rfl
    have hids : ((l.map (applyUpdate l targetId
        { priority := some q })).map Note.id) = l.map Note.id :=
      map_proj_eq _ _ Note.id happly
    have hnd' : ((l.map (applyUpdate l targetId
        { priority := some q })).map Note.id).Nodup := by
      rw [hids]; exact hnd
    have key := recompute_offsets
      (l.map (applyUpdate l targetId { priority := some q })) hnd' p
    have hupd : updateNote targetId { priority := some q } l =
        recomputeAll (l.map (applyUpdate l targetId { priority := some q })) := by
      simp [updateNote]
    rw [hupd]
    have hlen2 : ((recomputeAll (l.map (applyUpdate l targetId
        { priority := some q }))).filter (fun n => n.priority == p)).length =
        ((l.map (applyUpdate l targetId { priority := some q })).filter
          (fun n => n.priority == p)).length := by
      have hc := congrArg List.length key
      simpa using hc
    rw [hlen2]
    exact key

lemma layerInv_of_wf (l : List Note) (hwf : WFNotes l) : LayerInv l := by
  intro a ha b hb hab
  obtain ⟨⟨ha1, ha2⟩, ha3, ha4⟩ := hwf a ha
  obtain ⟨⟨hb1, hb2⟩, hb3, hb4⟩ := hwf b hb
  omega

lemma wf_create (l : List Note) (newId : String) (x y w h vw vh : ℚ)
    (hwf : WFNotes l) (hmax : maxInPriority 3 l ≤ 998) :
    WFNotes (createNote l newId x y w h vw vh) := by
  intro n hn
  rw [createNote, List.mem_append] at hn
  rcases hn with hn | hn
  · exact hwf n hn
  · rw [List.mem_singleton] at hn
    subst hn
    have hband := calculateZIndex_band 3 l hwf hmax
    refine ⟨⟨by norm_num, by norm_num⟩, ?_, ?_⟩
    · show (6 - (3:ℤ)) * 1000 + 1 ≤ calculateZIndex 3 l
      have := hband.1
      omega
    · show calculateZIndex 3 l ≤ (6 - (3:ℤ)) * 1000 + 999
      have := hband.2
      omega

lemma wf_delete (l : List Note) (targetId : String) (hwf : WFNotes l) :
    WFNotes (deleteNote targetId l) := by
  intro n hn
  exact hwf n (List.mem_of_mem_filter hn)

lemma wf_recomputeAll (m : List Note) (hlen : m.length ≤ 999)
    (hp : ∀ n ∈ m, 1 ≤ n.priority ∧ n.priority ≤ 5) :
    WFNotes (recomputeAll m) := by
  intro n' hn'
  rw [recomputeAll] at hn'
  obtain ⟨n, hn, rfl⟩ := List.mem_map.1 hn'
  refine ⟨hp n hn, ?_, ?_⟩
  · show (6 - n.priority) * 1000 + 1 ≤
      (6 - n.priority) * 1000 +
        ((((m.filter fun x => x.priority == n.priority).findIdx
          fun x => x.id == n.id) : ℕ) : ℤ) + 1
    have := Int.ofNat_nonneg
      ((m.filter fun x => x.priority == n.priority).findIdx
        fun x => x.id == n.id)
    omega
  · show (6 - n.priority) * 1000 +
        ((((m.filter fun x => x.priority == n.priority).findIdx
          fun x => x.id == n.id) : ℕ) : ℤ) + 1 ≤
      (6 - n.priority) * 1000 + 999
    have hidx : ((m.filter fun x => x.priority == n.priority).findIdx
        fun x => x.id == n.id) <
        (m.filter fun x => x.priority == n.priority).length :=
      List.findIdx_lt_length_of_exists
        ⟨n, List.mem_filter.2 ⟨hn, by simp⟩, by simp⟩
    have hflen := List.length_filter_le
      (fun x => x.priority == n.priority) m
    omega

lemma wf_update (l : List Note) (targetId : String) (u : NoteUpdate)
    (hwf : WFNotes l) (hlen : l.length ≤ 999)
    (hz : u.zIndex = none)
    (hup : ∀ p, u.priority = some p → 1 ≤ p ∧ p ≤ 5)
    (hmaxall : ∀ n ∈ l, maxInPriority n.priority l ≤ 998) :
    WFNotes (updateNote targetId u l) := by
  cases hpri : u.priority with
  | some q =>
    have hq := hup q hpri
    have hupd : updateNote targetId u l =
        recomputeAll (l.map (applyUpdate l targetId u)) := by
      simp [updateNote, hpri]
    rw [hupd]
    apply wf_recomputeAll
    · rw [List.length_map]; exact hlen
    · intro n hn
      obtain ⟨n1, hn1, rfl⟩ := List.mem_map.1 hn
      rw [applyUpdate_priority]
      split_ifs with h
      · simp only [hpri, Option.getD_some]
        exact hq
      · exact (hwf n1 hn1).1
  | none =>
    have hupd : updateNote targetId u l = l.map (applyUpdate l targetId u) := by
      simp [updateNote, hpri]
    rw [hupd]
    intro n' hn'
    obtain ⟨n, hn, rfl⟩ := List.mem_map.1 hn'
    by_cases hid : (n.id == targetId) = true
    · have hpc : priorityChanged u n = false := by rw [priorityChanged, hpri]
      have hmp : (mergeUpdate n u).priority = n.priority := by
        simp [mergeUpdate, hpri]
      by_cases hg : geometryChanged u = true
      · have heq : applyUpdate l targetId u n =
            { mergeUpdate n u with zIndex := calculateZIndex n.priority l } := by
          rw [applyUpdate]
          simp [hid, hpc, hg]
        rw [heq]
        have hband := calculateZIndex_band n.priority l hwf (hmaxall n hn)
        refine ⟨?_, ?_, ?_⟩
        · show 1 ≤ (mergeUpdate n u).priority ∧ (mergeUpdate n u).priority ≤ 5
          rw [hmp]; exact (hwf n hn).1
        · show (6 - (mergeUpdate n u).priority) * 1000 + 1 ≤
            calculateZIndex n.priority l
          rw [hmp]; exact hband.1
        · show calculateZIndex n.priority l ≤
            (6 - (mergeUpdate n u).priority) * 1000 + 999
          rw [hmp]; exact hband.2
      · have heq : applyUpdate l targetId u n = mergeUpdate n u := by
          rw [applyUpdate]
          simp [hid, hpc, hg]
        rw [heq]
        have hmz : (mergeUpdate n u).zIndex = n.zIndex := by
          simp [mergeUpdate, hz]
        refine ⟨?_, ?_, ?_⟩
        · rw [hmp]; exact (hwf n hn).1
        · rw [hmp, hmz]; exact (hwf n hn).2.1
        · rw [hmp, hmz]; exact (hwf n hn).2.2
    · rw [applyUpdate_unmatched _ _ _ _ (by simpa using hid)]
      exact hwf n hn

/-! ## Claim C2 -/

/-- Counterexample to claim C2: handleDragStart (drag-start bring-to-front)
assigns `maxZIndex + 1` regardless of priority bands and can invert the
layering. Full trace from the empty store: create `a` and `b` (zIndexes
3001, 3002, maxZIndex 3002), move `a` to priority 1 and `b` to priority 5
(zIndexes 5001 and 1001; updateNote never advances maxZIndex), then
drag-start `a` (zIndex 3003) and drag-start `b` (zIndex 3004): now `a` has
priority 1 < 5 but zIndex 3003 < 3004 — the invariant fails after a store
operation. -/
theorem dragStart_breaks_layering_cex :
    createNote [] "a" 0 0 300 250 1024 768 = [baseNote "a" 3 3001] ∧
    createNote [baseNote "a" 3 3001] "b" 0 0 300 250 1024 768 =
      [baseNote "a" 3 3001, baseNote "b" 3 3002] ∧
    updateNote "a" { priority := some 1 }
        [baseNote "a" 3 3001, baseNote "b" 3 3002] =
      [baseNote "a" 1 5001, baseNote "b" 3 3001] ∧
    updateNote "b" { priority := some 5 }
        [baseNote "a" 1 5001, baseNote "b" 3 3001] =
      [baseNote "a" 1 5001, baseNote "b" 5 1001] ∧
    createMaxZIndex 1 [] = 3001 ∧
    createMaxZIndex 3001 [baseNote "a" 3 3001] = 3002 ∧
    handleDragStart "a" 3002 [baseNote "a" 1 5001, baseNote "b" 5 1001] =
      [baseNote "a" 1 3003, baseNote "b" 5 1001] ∧
    dragStartMaxZIndex "a" 3002 [baseNote "a" 1 5001, baseNote "b" 5 1001] =
      3003 ∧
    handleDragStart "b" 3003 [baseNote "a" 1 3003, baseNote "b" 5 1001] =
      [baseNote "a" 1 3003, baseNote "b" 5 3004] ∧
    ¬ LayerInv [baseNote "a" 1 3003, baseNote "b" 5 3004] := by
  have hz1 : calculateZIndex 3 [] = 3001 := by decide
  have hz2 : calculateZIndex 3 [baseNote "a" 3 3001] = 3002 := by decide
  simp only [baseNote] at hz2
  refine ⟨?_, ?_, by decide, by decide, by decide, by decide, by decide,
    by decide, by decide, by decide⟩
  · norm_num [createNote, baseNote, hz1, max_def, min_def]
  · norm_num [createNote, baseNote, hz2, max_def, min_def]

/-- Claim C2 amended: the layering invariant (lower priority number stacks
strictly above) holds after createNote, updateNote, deleteNote and
handleDragEnd, provided the starting state is well-formed — every priority
in 1..5, every zIndex strictly inside its priority band, at most 999 notes,
and the in-band maxima below the 999 occupancy ceiling — and the update
carries no zIndex field and only priorities in 1..5. handleDragStart is
excluded: it can break the invariant (see the counterexample). -/
theorem layering_invariant_after_store_ops (l : List Note) :
    (WFNotes l → LayerInv l) ∧
    (∀ (newId : String) (x y w h vw vh : ℚ), WFNotes l →
      maxInPriority 3 l ≤ 998 →
      LayerInv (createNote l newId x y w h vw vh)) ∧
    (∀ (targetId : String) (u : NoteUpdate), WFNotes l → l.length ≤ 999 →
      u.zIndex = none → (∀ p, u.priority = some p → 1 ≤ p ∧ p ≤ 5) →
      (∀ n ∈ l, maxInPriority n.priority l ≤ 998) →
      LayerInv (updateNote targetId u l)) ∧
    (∀ targetId : String, WFNotes l → LayerInv (deleteNote targetId l)) ∧
    (∀ (did : Option String) (vw vh : ℚ), WFNotes l → l.length ≤ 999 →
      (∀ n ∈ l, maxInPriority n.priority l ≤ 998) →
      LayerInv (handleDragEnd did vw vh l)) := by
  refine ⟨layerInv_of_wf l, ?_, ?_, ?_, ?_⟩
  · intro newId x y w h vw vh hwf hmax
    exact layerInv_of_wf _ (wf_create l newId x y w h vw vh hwf hmax)
  · intro targetId u hwf hlen hz hup hmaxall
    exact layerInv_of_wf _ (wf_update l targetId u hwf hlen hz hup hmaxall)
  · intro targetId hwf
    exact layerInv_of_wf _ (wf_delete l targetId hwf)
  · intro did vw vh hwf hlen hmaxall
    cases did with
    | none => exact layerInv_of_wf l hwf
    | some d =>
      cases hf : l.find? (fun n => n.id == d) with
      | none =>
        simp only [handleDragEnd, hf]
        exact layerInv_of_wf l hwf
      | some note =>
        simp only [handleDragEnd, hf]
        split_ifs with hcond
        · apply layerInv_of_wf
          apply wf_update l d _ hwf hlen rfl ?_ hmaxall
          intro p hp
          simp at hp
        · exact layerInv_of_wf l hwf

/-- Witness for C2 amended: the update clause applied to a concrete
well-formed two-note store. -/
theorem layering_invariant_after_store_ops_witness :
    LayerInv (updateNote "a" { priority := some 2 }
      [baseNote "a" 3 3001, baseNote "b" 4 2001]) :=
  (layering_invariant_after_store_ops
      [baseNote "a" 3 3001, baseNote "b" 4 2001]).2.2.1 "a"
    { priority := some 2 } (by decide) (by decide) rfl
    (fun p hp => by
      cases hp
      constructor <;> decide)
    (by decide)

/-- Witness for C4 amended: the banded-zIndex clause applied to a concrete
two-note store. -/
theorem priority_recompute_band_and_array_order_witness :
    ∃ n ∈ updateNote "a" { priority := some 1 }
        [baseNote "a" 3 3001, baseNote "b" 3 3002],
      n.id = "a" ∧ n.priority = 1 ∧ 5001 ≤ n.zIndex ∧ n.zIndex ≤ 5999 :=
  (priority_recompute_band_and_array_order
      [baseNote "a" 3 3001, baseNote "b" 3 3002] "a").1 (by decide)
    ⟨baseNote "a" 3 3001, by decide, by decide⟩
